import Mathlib

/-!
Shallow embedding of `src/scripts/buco-set-overlap/compare-busco-sets.py`.

The script reads two BUSCO full-table files into dicts mapping a BUSCO id to
a `(sequence, start, end)` triple, computes pairwise interval overlaps between
the two sets, draws an image, and writes the overlap records to a
tab-separated output file.

Python dicts preserve insertion order, so a dict is modelled as an
association list iterated in order; a Python tuple is modelled as a Lean
product or structure; file writing is modelled by the list of lines written.
-/

namespace BuscoOverlap

/-- One entry of the dict built by `read_ids`: a BUSCO id paired with the
`(text, start, end)` value, where `text` is the sequence name from column 2. -/
abbrev IdEntry := String × String × Int × Int

/-- An Overlap Result: the tuple
`(id1, id2, overlap_length, non_overlap_length1, non_overlap_length2)`
appended by `find_overlaps`; `id2` is `none` (Python `None`) when `id1` found
no overlap in set 2. -/
structure Overlap where
  id1 : String
  id2 : Option String
  overlap_length : Int
  non_overlap_length1 : Int
  non_overlap_length2 : Int
  deriving DecidableEq, Repr

/-- The record appended for an overlapping pair (lines 39-44):
`overlap_length = max(0, min(end1, end2) - max(start1, start2))`,
`non_overlap_length1 = end1 - start1 - overlap_length`,
`non_overlap_length2 = end2 - start2 - overlap_length`. -/
def match_record (id1 id2 : String) (start1 end1 start2 end2 : Int) : Overlap :=
  { id1 := id1, id2 := some id2
    overlap_length := max 0 (min end1 end2 - max start1 start2)
    non_overlap_length1 :=
      end1 - start1 - max 0 (min end1 end2 - max start1 start2)
    non_overlap_length2 :=
      end2 - start2 - max 0 (min end1 end2 - max start1 start2) }

/-- The record appended for an `id1` with no overlap in set 2 (line 47):
`(id1, None, 0, end1 - start1, 0)`. -/
def unmatched_record (id1 : String) (start1 end1 : Int) : Overlap :=
  { id1 := id1, id2 := none, overlap_length := 0
    non_overlap_length1 := end1 - start1, non_overlap_length2 := 0 }

/-- The records appended by the inner loop of `find_overlaps` (lines 36-45)
for a fixed entry `(id1, (text1, start1, end1))` of set 1: one record per
entry of `ids2` satisfying
`text1 == text2 and start1 <= end2 and start2 <= end1`, in iteration order. -/
def overlap_records (id1 text1 : String) (start1 end1 : Int)
    (ids2 : List IdEntry) : List Overlap :=
  ids2.filterMap fun e =>
    match e with
    | (id2, text2, start2, end2) =>
      if text1 = text2 ∧ start1 ≤ end2 ∧ start2 ≤ end1 then
        some (match_record id1 id2 start1 end1 start2 end2)
      else none

/-- One iteration of the outer loop of `find_overlaps` (lines 35-47): the
records for one entry of set 1 — its matches against every entry of `ids2`,
or the single unmatched record `(id1, None, 0, end1 - start1, 0)` when
`foundIn2` stays `False` (i.e. the match list is empty). -/
def find_overlaps_one (e : IdEntry) (ids2 : List IdEntry) : List Overlap :=
  match e with
  | (id1, text1, start1, end1) =>
    let ms := overlap_records id1 text1 start1 end1 ids2
    if ms.isEmpty then [unmatched_record id1 start1 end1]
    else ms

/-- Function `find_overlaps` (lines 33-49): the concatenation, over the entries of
set 1 in order, of the records produced for each entry. -/
def find_overlaps (ids1 ids2 : List IdEntry) : List Overlap :=
  ids1.flatMap fun e => find_overlaps_one e ids2

/-- Python `str` of the `id2` field as interpolated by the f-string on
line 56: `str(None)` is the four-character string `None`. -/
def py_str_opt : Option String → String
  | none => "None"
  | some s => s

/-- The line written for one Overlap Result by `write_overlaps` (line 56),
without the trailing newline character: the five fields joined by tabs. -/
def overlap_line (r : Overlap) : String :=
  r.id1 ++ "\t" ++ py_str_opt r.id2 ++ "\t" ++ toString r.overlap_length
    ++ "\t" ++ toString r.non_overlap_length1
    ++ "\t" ++ toString r.non_overlap_length2

/-- Python `sorted(..., key=key, reverse=True)` / `list.sort(key=key,
reverse=True)`: the stable sort in descending key order. Python's sort is
stable and `reverse=True` does not reverse the relative order of equal keys,
so an element placed earlier in the input precedes a later one exactly when
its key is greater than or equal; `insertionSort` with this relation computes
exactly that order. -/
def py_sorted_desc (key : Overlap → Int) (l : List Overlap) : List Overlap :=
  l.insertionSort fun a b => key b ≤ key a

/-- Function `write_overlaps` (lines 52-56) as the list of lines it writes to
`outfile`: it sorts a fresh copy of its argument (Python `sorted`, not
`list.sort`) descending by `overlap_length` (`key=lambda x: x[2]`,
`reverse=True`) and writes one line per record. -/
def write_overlaps (overlaps : List Overlap) : List String :=
  (py_sorted_desc (fun x => x.overlap_length) overlaps).map overlap_line

/-- The list state after `generate_image`'s in-place
`overlaps.sort(key=lambda x: x[2] + x[3], reverse=True)` (line 66):
`generate_image` mutates the list object passed to it, so the caller's list
is this sorted list afterwards. -/
def generate_image_list (overlaps : List Overlap) : List Overlap :=
  py_sorted_desc (fun x => x.overlap_length + x.non_overlap_length1) overlaps

/-- The lines `main` (lines 109-121) writes to `outfile`: `find_overlaps`,
then `generate_image` (which sorts the shared list in place), then
`write_overlaps` applied to the mutated list. -/
def main_outfile_lines (ids1 ids2 : List IdEntry) : List String :=
  write_overlaps (generate_image_list (find_overlaps ids1 ids2))

/-- The Python exceptions that the parsing stage can raise. -/
inductive PyError
  | indexError
  | valueError
  deriving DecidableEq, Repr

deriving instance DecidableEq for Except

/-- Python `str.startswith` on character sequences: true iff the second
argument is an initial segment of the first. -/
def starts_with : List Char → List Char → Bool
  | _, [] => true
  | [], _ :: _ => false
  | c :: cs, p :: ps => c = p && starts_with cs ps

/-- Accumulating decimal parser: consumes decimal digits, failing on the
first non-digit character. -/
def parse_nat_core : List Char → Nat → Option Nat
  | [], acc => some acc
  | c :: cs, acc =>
    if c.isDigit then parse_nat_core cs (10 * acc + (c.toNat - 48)) else none

/-- A non-empty all-digit character sequence read as a decimal number. -/
def parse_nat? (cs : List Char) : Option Nat :=
  match cs with
  | [] => none
  | _ => parse_nat_core cs 0

/-- Python `int()` applied to a coordinate column: an optional sign followed
by one or more decimal digits, raising `ValueError` on any other string.
(`int()` also tolerates surrounding whitespace and underscores between
digits; such strings do not occur in BUSCO tables and are not modelled.) -/
def py_int (s : String) : Except PyError Int :=
  match s.data with
  | '-' :: cs =>
    match parse_nat? cs with
    | some n => Except.ok (-(n : Int))
    | none => Except.error PyError.valueError
  | '+' :: cs =>
    match parse_nat? cs with
    | some n => Except.ok (n : Int)
    | none => Except.error PyError.valueError
  | cs =>
    match parse_nat? cs with
    | some n => Except.ok (n : Int)
    | none => Except.error PyError.valueError

/-- Function `get_start_end` (lines 12-15): `start = int(row[3])`, `end = int(row[4])`,
returned with the smaller coordinate first. Evaluation order: `row[3]` (may
raise `IndexError`), `int` of it (may raise `ValueError`), then `row[4]`,
then `int` of it. -/
def get_start_end (row : List String) : Except PyError (Int × Int) :=
  match row[3]? with
  | none => Except.error PyError.indexError
  | some s3 =>
    match py_int s3 with
    | Except.error e => Except.error e
    | Except.ok start =>
      match row[4]? with
      | none => Except.error PyError.indexError
      | some s4 =>
        match py_int s4 with
        | Except.error e => Except.error e
        | Except.ok stop =>
          Except.ok (if start < stop then (start, stop) else (stop, start))

/-- Python `ids[row_id] = value` on an insertion-ordered dict: replaces the
value in place when the key is present (keeping its position), otherwise
appends the new binding at the end. -/
def dict_set (k : String) (v : String × Int × Int) :
    List IdEntry → List IdEntry
  | [] => [(k, v)]
  | (k', v') :: tl =>
    if k' = k then (k, v) :: tl else (k', v') :: dict_set k v tl

/-- One iteration of the row loop of `read_ids` (lines 22-29).
`row[0].startswith("#")` is evaluated outside the `contextlib.suppress`
block, so an empty row raises an uncaught `IndexError`. Inside the block,
`row[2]` and the `IndexError`s from `get_start_end` are suppressed (the row
is skipped), but a `ValueError` from `int()` is not suppressed and
propagates. -/
def read_ids_row (ids : List IdEntry) (row : List String) :
    Except PyError (List IdEntry) :=
  match row[0]? with
  | none => Except.error PyError.indexError
  | some c0 =>
    if starts_with c0.data "#".data then Except.ok ids
    else
      match row[2]? with
      | none => Except.ok ids
      | some text =>
        match get_start_end row with
        | Except.error PyError.indexError => Except.ok ids
        | Except.error PyError.valueError => Except.error PyError.valueError
        | Except.ok (s, e) => Except.ok (dict_set c0 (text, s, e) ids)

/-- Function `read_ids` (lines 18-30) on the rows produced by the tab-delimited csv
reader: folds the row loop over the rows, starting from the empty dict; the
first uncaught exception aborts the whole call. -/
def read_ids (rows : List (List String)) : Except PyError (List IdEntry) :=
  rows.foldlM read_ids_row []

/-- Splitting a sequence of characters at every tab, the way a tab-delimited
reader splits one output line back into its columns. -/
def splitOnTab : List Char → List (List Char)
  | [] => [[]]
  | c :: cs =>
    if c = '\t' then [] :: splitOnTab cs
    else
      match splitOnTab cs with
      | [] => [[c]]
      | h :: t => (c :: h) :: t

/-- The five column strings (as character lists) actually written for one
Overlap Result by `write_overlaps`: `id1`, `str(id2)` (so `None` when `id2`
is absent), and the decimal renderings of the three lengths. -/
def written_tuple (r : Overlap) : List (List Char) :=
  [r.id1.data, (py_str_opt r.id2).data, (toString r.overlap_length).data,
    (toString r.non_overlap_length1).data, (toString r.non_overlap_length2).data]

/-- The five column strings the specification claims for one Overlap Result:
like `written_tuple`, but with the `id2` column as the empty string when
`id2` is absent ("`id2` column is empty string when absent"). -/
def spec_claimed_tuple (r : Overlap) : List (List Char) :=
  [r.id1.data, (match r.id2 with | none => "" | some s => s).data,
    (toString r.overlap_length).data, (toString r.non_overlap_length1).data,
    (toString r.non_overlap_length2).data]

/-! ## Helper lemmas about `find_overlaps` -/

theorem mem_overlap_records_intro {id1 text1 : String} {start1 end1 : Int}
    {ids2 : List IdEntry} {id2 text2 : String} {start2 end2 : Int}
    (h2 : (id2, text2, start2, end2) ∈ ids2)
    (hc : text1 = text2 ∧ start1 ≤ end2 ∧ start2 ≤ end1) :
    match_record id1 id2 start1 end1 start2 end2 ∈
      overlap_records id1 text1 start1 end1 ids2 := by
  unfold overlap_records
  refine List.mem_filterMap.mpr ⟨(id2, text2, start2, end2), h2, ?_⟩
  simp [hc]

theorem mem_overlap_records_elim {id1 text1 : String} {start1 end1 : Int}
    {ids2 : List IdEntry} {r : Overlap}
    (h : r ∈ overlap_records id1 text1 start1 end1 ids2) :
    ∃ id2 text2 start2 end2, (id2, text2, start2, end2) ∈ ids2 ∧
      (text1 = text2 ∧ start1 ≤ end2 ∧ start2 ≤ end1) ∧
      r = match_record id1 id2 start1 end1 start2 end2 := by
  unfold overlap_records at h
  obtain ⟨⟨id2, text2, start2, end2⟩, hmem, hf⟩ := List.mem_filterMap.mp h
  by_cases hc : text1 = text2 ∧ start1 ≤ end2 ∧ start2 ≤ end1
  · refine ⟨id2, text2, start2, end2, hmem, hc, ?_⟩
    dsimp only at hf
    rw [if_pos hc, Option.some.injEq] at hf
    exact hf.symm
  · simp [hc] at hf

theorem overlap_records_id_fields {id1 text1 : String} {start1 end1 : Int}
    {ids2 : List IdEntry} {r : Overlap}
    (h : r ∈ overlap_records id1 text1 start1 end1 ids2) :
    r.id1 = id1 ∧ ∃ i, r.id2 = some i := by
  obtain ⟨id2, text2, start2, end2, _, _, rfl⟩ := mem_overlap_records_elim h
  exact ⟨rfl, id2, rfl⟩

theorem find_overlaps_one_id1 {e : IdEntry} {ids2 : List IdEntry} {r : Overlap}
    (h : r ∈ find_overlaps_one e ids2) : r.id1 = e.1 := by
  obtain ⟨id1, text1, start1, end1⟩ := e
  dsimp only [find_overlaps_one] at h
  split at h
  · rw [List.mem_singleton.mp h]
    rfl
  · exact (overlap_records_id_fields h).1

theorem mem_find_overlaps {ids1 ids2 : List IdEntry} {r : Overlap} :
    r ∈ find_overlaps ids1 ids2 ↔ ∃ e ∈ ids1, r ∈ find_overlaps_one e ids2 :=
  List.mem_flatMap

theorem find_overlaps_cons {a : IdEntry} {tl ids2 : List IdEntry} :
    find_overlaps (a :: tl) ids2 =
      find_overlaps_one a ids2 ++ find_overlaps tl ids2 :=
  List.flatMap_cons a tl _

theorem nodup_key_val_eq {β : Type} {l : List (String × β)}
    (h : (l.map Prod.fst).Nodup) {k : String} {v w : β}
    (hv : (k, v) ∈ l) (hw : (k, w) ∈ l) : v = w := by
  induction l with
  | nil => cases hv
  | cons a tl ih =>
    rw [List.map_cons, List.nodup_cons] at h
    rcases List.mem_cons.mp hv with hv1 | hv2 <;>
      rcases List.mem_cons.mp hw with hw1 | hw2
    · rw [← hv1] at hw1
      exact (Prod.mk.injEq _ _ _ _ ▸ hw1.symm).2
    · exfalso
      apply h.1
      rw [← hv1]
      exact List.mem_map.mpr ⟨(k, w), hw2, rfl⟩
    · exfalso
      apply h.1
      rw [← hw1]
      exact List.mem_map.mpr ⟨(k, v), hv2, rfl⟩
    · exact ih h.2 hv2 hw2

theorem find_overlaps_filter_eq {ids1 ids2 : List IdEntry} {id1 : String}
    {v1 : String × Int × Int}
    (hnd : (ids1.map Prod.fst).Nodup) (hmem : (id1, v1) ∈ ids1) :
    (find_overlaps ids1 ids2).filter (fun r => r.id1 == id1) =
      find_overlaps_one (id1, v1) ids2 := by
  induction ids1 with
  | nil => cases hmem
  | cons a tl ih =>
    rw [List.map_cons, List.nodup_cons] at hnd
    rw [find_overlaps_cons, List.filter_append]
    rcases List.mem_cons.mp hmem with heq | hmem'
    · have h1 : (find_overlaps_one a ids2).filter (fun r => r.id1 == id1) =
          find_overlaps_one a ids2 := by
        refine List.filter_eq_self.mpr fun r hr => ?_
        rw [find_overlaps_one_id1 hr, ← heq]
        simp
      have h2 : (find_overlaps tl ids2).filter (fun r => r.id1 == id1) = [] := by
        refine List.filter_eq_nil_iff.mpr fun r hr => ?_
        obtain ⟨e, he, hre⟩ := mem_find_overlaps.mp hr
        rw [find_overlaps_one_id1 hre]
        intro hbeq
        apply hnd.1
        rw [show id1 = a.1 by rw [← heq]] at hbeq
        rw [← beq_iff_eq.mp hbeq]
        exact List.mem_map.mpr ⟨e, he, rfl⟩
      rw [h1, h2, List.append_nil, ← heq]
    · have ha : a.1 ≠ id1 := by
        intro hk
        apply hnd.1
        rw [hk]
        exact List.mem_map.mpr ⟨(id1, v1), hmem', rfl⟩
      have h1 : (find_overlaps_one a ids2).filter (fun r => r.id1 == id1) = [] := by
        refine List.filter_eq_nil_iff.mpr fun r hr => ?_
        rw [find_overlaps_one_id1 hr]
        simpa using ha
      rw [h1, List.nil_append]
      exact ih hnd.2 hmem'

theorem overlap_records_eq_map (id1 text1 : String) (start1 end1 : Int)
    (ids2 : List IdEntry) :
    overlap_records id1 text1 start1 end1 ids2 =
      (ids2.filter fun e =>
          decide (text1 = e.2.1 ∧ start1 ≤ e.2.2.2 ∧ e.2.2.1 ≤ end1)).map
        fun e => match_record id1 e.1 start1 end1 e.2.2.1 e.2.2.2 := by
  induction ids2 with
  | nil => rfl
  | cons a tl ih =>
    obtain ⟨id2, text2, start2, end2⟩ := a
    simp only [overlap_records, List.filterMap_cons] at ih ⊢
    by_cases hc : text1 = text2 ∧ start1 ≤ end2 ∧ start2 ≤ end1
    · rw [if_pos hc, List.filter_cons_of_pos (by simpa using hc), List.map_cons,
        ih]
    · rw [if_neg hc, List.filter_cons_of_neg (by simpa using hc), ih]

theorem overlap_records_ne_nil {ids2 : List IdEntry}
    {id1 text1 : String} {start1 end1 : Int} {id2 text2 : String}
    {start2 end2 : Int} (h2 : (id2, text2, start2, end2) ∈ ids2)
    (hc : text1 = text2 ∧ start1 ≤ end2 ∧ start2 ≤ end1) :
    ¬(overlap_records id1 text1 start1 end1 ids2).isEmpty = true := by
  rw [List.isEmpty_iff]
  intro hnil
  have hm := @mem_overlap_records_intro id1 text1 start1 end1 ids2 id2 text2
    start2 end2 h2 hc
  rw [hnil] at hm
  cases hm

theorem match_record_mem_find_overlaps {ids1 ids2 : List IdEntry}
    {id1 text1 : String} {start1 end1 : Int} {id2 text2 : String}
    {start2 end2 : Int}
    (h1 : (id1, text1, start1, end1) ∈ ids1)
    (h2 : (id2, text2, start2, end2) ∈ ids2)
    (hc : text1 = text2 ∧ start1 ≤ end2 ∧ start2 ≤ end1) :
    match_record id1 id2 start1 end1 start2 end2 ∈ find_overlaps ids1 ids2 := by
  refine mem_find_overlaps.mpr ⟨(id1, text1, start1, end1), h1, ?_⟩
  dsimp only [find_overlaps_one]
  rw [if_neg (overlap_records_ne_nil h2 hc)]
  exact mem_overlap_records_intro h2 hc

theorem no_null_record_of_match {ids1 ids2 : List IdEntry}
    {id1 text1 : String} {start1 end1 : Int} {id2 text2 : String}
    {start2 end2 : Int}
    (hnd1 : (ids1.map Prod.fst).Nodup)
    (h1 : (id1, text1, start1, end1) ∈ ids1)
    (h2 : (id2, text2, start2, end2) ∈ ids2)
    (hc : text1 = text2 ∧ start1 ≤ end2 ∧ start2 ≤ end1) :
    ∀ r ∈ find_overlaps ids1 ids2, r.id1 = id1 → r.id2 ≠ none := by
  intro r hr hrid
  have hfil := @find_overlaps_filter_eq ids1 ids2 id1 (text1, start1, end1)
    hnd1 h1
  have hrmem : r ∈ find_overlaps_one (id1, text1, start1, end1) ids2 := by
    rw [← hfil]
    exact List.mem_filter.mpr ⟨hr, by simp [hrid]⟩
  dsimp only [find_overlaps_one] at hrmem
  rw [if_neg (overlap_records_ne_nil h2 hc)] at hrmem
  obtain ⟨i, hi⟩ := (overlap_records_id_fields hrmem).2
  simp [hi]

/-! ## Helper lemmas about the stable descending sort -/

theorem py_sorted_desc_perm (key : Overlap → Int) (l : List Overlap) :
    (py_sorted_desc key l).Perm l :=
  List.perm_insertionSort _ l

theorem py_sorted_desc_pairwise (key : Overlap → Int) (l : List Overlap) :
    (py_sorted_desc key l).Pairwise fun a b => key b ≤ key a := by
  haveI : IsTotal Overlap fun a b => key b ≤ key a :=
    ⟨fun a b => le_total (key b) (key a)⟩
  haveI : IsTrans Overlap fun a b => key b ≤ key a :=
    ⟨fun a b c hab hbc => le_trans hbc hab⟩
  exact List.sorted_insertionSort _ l

theorem filter_orderedInsert_key (key : Overlap → Int) (v : Int) (x : Overlap)
    (l : List Overlap) :
    (List.orderedInsert (fun a b => key b ≤ key a) x l).filter
        (fun r => key r == v) =
      if key x = v then x :: l.filter (fun r => key r == v)
      else l.filter (fun r => key r == v) := by
  induction l with
  | nil =>
    dsimp [List.orderedInsert]
    rw [List.filter_cons]
    by_cases hxv : key x = v <;> simp [hxv]
  | cons y ys ih =>
    dsimp only [List.orderedInsert]
    by_cases hxy : key y ≤ key x
    · rw [if_pos hxy, List.filter_cons]
      by_cases hxv : key x = v <;> simp [hxv]
    · rw [if_neg hxy, List.filter_cons, ih]
      by_cases hxv : key x = v
      · have hyv : ¬key y = v := fun h => hxy (le_of_eq (h.trans hxv.symm))
        simp [hxv, hyv, List.filter_cons]
      · by_cases hyv : key y = v <;> simp [hxv, hyv, List.filter_cons]

theorem filter_py_sorted_desc (key : Overlap → Int) (v : Int)
    (l : List Overlap) :
    (py_sorted_desc key l).filter (fun r => key r == v) =
      l.filter (fun r => key r == v) := by
  induction l with
  | nil => rfl
  | cons x xs ih =>
    dsimp only [py_sorted_desc, List.insertionSort] at ih ⊢
    rw [filter_orderedInsert_key, ih, List.filter_cons]
    by_cases hxv : key x = v <;> simp [hxv]

/-! ## Helper lemmas about line formatting and re-parsing -/

theorem splitOnTab_no_tab {a : List Char} (h : '\t' ∉ a) :
    splitOnTab a = [a] := by
  induction a with
  | nil => rfl
  | cons c cs ih =>
    have hc : ¬c = '\t' := fun hh => h (hh ▸ List.mem_cons_self c cs)
    have hcs : '\t' ∉ cs := fun hh => h (List.mem_cons_of_mem _ hh)
    dsimp only [splitOnTab]
    rw [if_neg hc, ih hcs]

theorem splitOnTab_append {a : List Char} (rest : List Char) (h : '\t' ∉ a) :
    splitOnTab (a ++ '\t' :: rest) = a :: splitOnTab rest := by
  induction a with
  | nil => simp [splitOnTab]
  | cons c cs ih =>
    have hc : ¬c = '\t' := fun hh => h (hh ▸ List.mem_cons_self c cs)
    have hcs : '\t' ∉ cs := fun hh => h (List.mem_cons_of_mem _ hh)
    rw [List.cons_append]
    simp only [splitOnTab]
    rw [if_neg hc, ih hcs]

theorem digitChar_ne_tab : ∀ n : Nat, Nat.digitChar n ≠ '\t'
  | 0 => by decide
  | 1 => by decide
  | 2 => by decide
  | 3 => by decide
  | 4 => by decide
  | 5 => by decide
  | 6 => by decide
  | 7 => by decide
  | 8 => by decide
  | 9 => by decide
  | 10 => by decide
  | 11 => by decide
  | 12 => by decide
  | 13 => by decide
  | 14 => by decide
  | 15 => by decide
  | (m + 16) => by
    unfold Nat.digitChar
    repeat rw [if_neg (by omega)]
    decide

theorem toDigitsCore_ne_tab :
    ∀ (fuel n : Nat) (ds : List Char), (∀ c ∈ ds, c ≠ '\t') →
      ∀ c ∈ Nat.toDigitsCore 10 fuel n ds, c ≠ '\t' := by
  intro fuel
  induction fuel with
  | zero => intro n ds hds c hc; exact hds c hc
  | succ fuel ih =>
    intro n ds hds c hc
    rw [Nat.toDigitsCore] at hc
    have hds' : ∀ d ∈ (n % 10).digitChar :: ds, d ≠ '\t' := by
      intro d hd
      rcases List.mem_cons.mp hd with rfl | hd'
      · exact digitChar_ne_tab _
      · exact hds d hd'
    split at hc
    · exact hds' c hc
    · exact ih (n / 10) _ hds' c hc

theorem natRepr_ne_tab (n : Nat) : '\t' ∉ (Nat.repr n).data := by
  intro h
  exact toDigitsCore_ne_tab (n + 1) n []
    (by intro c hc; cases hc) '\t' h rfl

theorem int_toString_ne_tab (n : Int) : '\t' ∉ (toString n).data := by
  cases n with
  | ofNat m => exact natRepr_ne_tab m
  | negSucc m =>
    intro h
    have h2 : '\t' ∈ ("-" ++ Nat.repr (m + 1)).data := h
    rw [String.data_append] at h2
    rcases List.mem_append.mp h2 with h3 | h3
    · cases List.mem_singleton.mp h3
    · exact natRepr_ne_tab (m + 1) h3

theorem tab_notin_py_str_opt {o : Option String}
    (h : ∀ s, o = some s → '\t' ∉ s.data) : '\t' ∉ (py_str_opt o).data := by
  cases o with
  | none => decide
  | some s => exact h s rfl

theorem splitOnTab_overlap_line {r : Overlap}
    (h1 : '\t' ∉ r.id1.data)
    (h2 : ∀ s, r.id2 = some s → '\t' ∉ s.data) :
    splitOnTab (overlap_line r).data = written_tuple r := by
  have e1 : (overlap_line r).data =
      r.id1.data ++ '\t' :: ((py_str_opt r.id2).data ++ '\t' ::
        ((toString r.overlap_length).data ++ '\t' ::
          ((toString r.non_overlap_length1).data ++ '\t' ::
            (toString r.non_overlap_length2).data))) := by
    simp [overlap_line, String.data_append]
  rw [e1, splitOnTab_append _ h1, splitOnTab_append _ (tab_notin_py_str_opt h2),
    splitOnTab_append _ (int_toString_ne_tab _),
    splitOnTab_append _ (int_toString_ne_tab _),
    splitOnTab_no_tab (int_toString_ne_tab _)]
  rfl

theorem pair_record_elim {ids1 ids2 : List IdEntry} {id1 text1 : String}
    {start1 end1 : Int} {id2 text2 : String} {start2 end2 : Int}
    (hnd1 : (ids1.map Prod.fst).Nodup) (hnd2 : (ids2.map Prod.fst).Nodup)
    (h1 : (id1, text1, start1, end1) ∈ ids1)
    (h2 : (id2, text2, start2, end2) ∈ ids2) :
    ∀ r ∈ find_overlaps ids1 ids2, r.id1 = id1 → r.id2 = some id2 →
      (text1 = text2 ∧ start1 ≤ end2 ∧ start2 ≤ end1) ∧
      r = match_record id1 id2 start1 end1 start2 end2 := by
  intro r hr hid hid2
  have hfil := @find_overlaps_filter_eq ids1 ids2 id1 (text1, start1, end1)
    hnd1 h1
  have hrm : r ∈ find_overlaps_one (id1, text1, start1, end1) ids2 := by
    rw [← hfil]
    exact List.mem_filter.mpr ⟨hr, by simp [hid]⟩
  dsimp only [find_overlaps_one] at hrm
  by_cases hemp : (overlap_records id1 text1 start1 end1 ids2).isEmpty
  · rw [if_pos hemp, List.mem_singleton] at hrm
    rw [hrm] at hid2
    cases hid2
  · rw [if_neg hemp] at hrm
    obtain ⟨id2', t2', s2', e2', hm2, hc', rfl⟩ :=
      mem_overlap_records_elim hrm
    have hid2' : id2' = id2 := by
      simpa [match_record] using hid2
    subst hid2'
    have hv := nodup_key_val_eq hnd2 hm2 h2
    rw [Prod.ext_iff] at hv
    obtain ⟨ht2, hv2⟩ := hv
    rw [Prod.ext_iff] at hv2
    obtain ⟨hs2, he2⟩ := hv2
    dsimp only at ht2 hs2 he2
    subst ht2
    subst hs2
    subst he2
    exact ⟨hc', rfl⟩

/-! ## Claims -/

/-- C1 (counterexample): the claim that neither consumer mutates the Overlap
Result list, and that the visualization ordering has no effect on the order
the tabular writer observes, is false: on the `find_overlaps` output for the
given concrete inputs, `generate_image` sorts the shared list in place to a
different order, and the lines subsequently written by `write_overlaps`
differ from the lines it would write for the unmutated list. -/
theorem c1_counterexample :
    generate_image_list (find_overlaps [("a", "s", 0, 5), ("b", "s", 0, 10)]
        [("x", "s", 20, 30)]) ≠
      find_overlaps [("a", "s", 0, 5), ("b", "s", 0, 10)] [("x", "s", 20, 30)] ∧
    write_overlaps (generate_image_list
        (find_overlaps [("a", "s", 0, 5), ("b", "s", 0, 10)]
          [("x", "s", 20, 30)])) ≠
      write_overlaps (find_overlaps [("a", "s", 0, 5), ("b", "s", 0, 10)]
        [("x", "s", 20, 30)]) := by
  decide

/-- C1 (corrected): `generate_image` sorts the shared list in place
(descending by `overlap_length + non_overlap_1`), so the tabular writer
observes the image-sorted list (`main` passes it the mutated list), while
`write_overlaps` itself sorts only its own copy; consequently, among records
of equal `overlap_length`, the order of the lines written to the output file
is the visualization order, not the original `find_overlaps` order. -/
theorem c1_amended_consumers (ids1 ids2 : List IdEntry) :
    main_outfile_lines ids1 ids2 =
      write_overlaps (generate_image_list (find_overlaps ids1 ids2)) ∧
    ∀ v : Int,
      (py_sorted_desc (fun r => r.overlap_length)
          (generate_image_list (find_overlaps ids1 ids2))).filter
          (fun r => r.overlap_length == v) =
        (generate_image_list (find_overlaps ids1 ids2)).filter
          (fun r => r.overlap_length == v) :=
  ⟨rfl, fun v => filter_py_sorted_desc _ v _⟩

/-- C2 (counterexample): for an Overlap Result with absent `id2`, the line
written by `write_overlaps` does not have an empty `id2` column: Python
interpolates `None`, so the written line is `a\tNone\t0\t5\t0`, not
`a\t\t0\t5\t0`. -/
theorem c2_counterexample :
    write_overlaps [⟨"a", none, 0, 5, 0⟩] = ["a\tNone\t0\t5\t0"] ∧
    write_overlaps [⟨"a", none, 0, 5, 0⟩] ≠ ["a\t\t0\t5\t0"] := by
  decide

/-- C2 (corrected): for every Overlap Result whose `id2` is absent, the line
written by `write_overlaps` has the string `None` in the `id2` column: it is
`id1`, tab, `None`, tab, `overlap_length`, tab, `non_overlap_1`, tab,
`non_overlap_2`. -/
theorem c2_amended_none_column (r : Overlap) (h : r.id2 = none) :
    overlap_line r =
      r.id1 ++ "\t" ++ "None" ++ "\t" ++ toString r.overlap_length ++ "\t" ++
        toString r.non_overlap_length1 ++ "\t" ++
        toString r.non_overlap_length2 := by
  simp [overlap_line, py_str_opt, h]

/-- C2 (witness): the corrected claim applied to a concrete record with
absent `id2`. -/
theorem c2_amended_none_column_witness :
    overlap_line ⟨"a", none, 2, 3, 4⟩ =
      "a" ++ "\t" ++ "None" ++ "\t" ++ toString (2 : Int) ++ "\t" ++
        toString (3 : Int) ++ "\t" ++ toString (4 : Int) :=
  c2_amended_none_column ⟨"a", none, 2, 3, 4⟩ rfl

/-- C8: the lines written by `write_overlaps` are its input list sorted in
descending order of `overlap_length` alone, the sort being stable: the
output is a permutation of the input, pairwise non-increasing in
`overlap_length`, and the records of any fixed `overlap_length` value appear
in exactly their input order. -/
theorem c8_write_sorted (l : List Overlap) :
    write_overlaps l =
      (py_sorted_desc (fun r => r.overlap_length) l).map overlap_line ∧
    (py_sorted_desc (fun r => r.overlap_length) l).Perm l ∧
    (py_sorted_desc (fun r => r.overlap_length) l).Pairwise
      (fun a b => b.overlap_length ≤ a.overlap_length) ∧
    ∀ v : Int,
      (py_sorted_desc (fun r => r.overlap_length) l).filter
          (fun r => r.overlap_length == v) =
        l.filter (fun r => r.overlap_length == v) :=
  ⟨rfl, py_sorted_desc_perm _ l, py_sorted_desc_pairwise _ l,
    fun v => filter_py_sorted_desc _ v l⟩

/-- C5: for key-distinct input dicts, a pair `(id1, id2)` of entries of the
two sets gets a result record iff `sequence_name1 = sequence_name2` and
`start1 ≤ end2` and `start2 ≤ end1`, and every record emitted for an
overlapping pair has exactly the fields
`overlap_length = max 0 (min end1 end2 - max start1 start2)`,
`non_overlap_1 = (end1 - start1) - overlap_length` and
`non_overlap_2 = (end2 - start2) - overlap_length`. -/
theorem c5_pair_characterization
    (ids1 ids2 : List IdEntry) (id1 text1 : String) (start1 end1 : Int)
    (id2 text2 : String) (start2 end2 : Int)
    (hnd1 : (ids1.map Prod.fst).Nodup) (hnd2 : (ids2.map Prod.fst).Nodup)
    (h1 : (id1, text1, start1, end1) ∈ ids1)
    (h2 : (id2, text2, start2, end2) ∈ ids2) :
    ((∃ r ∈ find_overlaps ids1 ids2, r.id1 = id1 ∧ r.id2 = some id2) ↔
      (text1 = text2 ∧ start1 ≤ end2 ∧ start2 ≤ end1)) ∧
    ∀ r ∈ find_overlaps ids1 ids2, r.id1 = id1 → r.id2 = some id2 →
      r = { id1 := id1, id2 := some id2
            overlap_length := max 0 (min end1 end2 - max start1 start2)
            non_overlap_length1 :=
              end1 - start1 - max 0 (min end1 end2 - max start1 start2)
            non_overlap_length2 :=
              end2 - start2 - max 0 (min end1 end2 - max start1 start2) } := by
  constructor
  · constructor
    · rintro ⟨r, hr, hid, hid2⟩
      exact (pair_record_elim hnd1 hnd2 h1 h2 r hr hid hid2).1
    · intro hc
      exact ⟨match_record id1 id2 start1 end1 start2 end2,
        match_record_mem_find_overlaps h1 h2 hc, rfl, rfl⟩
  · intro r hr hid hid2
    exact (pair_record_elim hnd1 hnd2 h1 h2 r hr hid hid2).2

/-- C5 (witness): on the spec's own example — intervals `(10, 20)` and
`(15, 25)` on the same sequence — the record `(a, b, 5, 5, 5)` is emitted. -/
theorem c5_pair_characterization_witness :
    (⟨"a", some "b", 5, 5, 5⟩ : Overlap) ∈
      find_overlaps [("a", "s", 10, 20)] [("b", "s", 15, 25)] := by
  have hc5 := c5_pair_characterization [("a", "s", 10, 20)]
    [("b", "s", 15, 25)] "a" "s" 10 20 "b" "s" 15 25 (by decide) (by decide)
    (by decide) (by decide)
  obtain ⟨r, hr, hid, hid2⟩ := hc5.1.mpr ⟨rfl, by decide, by decide⟩
  have he := hc5.2 r hr hid hid2
  rw [he] at hr
  have hr' : match_record "a" "b" 10 20 15 25 ∈
      find_overlaps [("a", "s", 10, 20)] [("b", "s", 15, 25)] := hr
  have hconv : match_record "a" "b" 10 20 15 25 =
      (⟨"a", some "b", 5, 5, 5⟩ : Overlap) := by decide
  rw [hconv] at hr'
  exact hr'

/-- C6: an `id1` of set 1 (with key-distinct keys) that overlaps no entry of
set 2 gets exactly one result record, namely
`(id1, None, 0, end1 - start1, 0)`. -/
theorem c6_unmatched (ids1 ids2 : List IdEntry) (id1 text1 : String)
    (start1 end1 : Int) (hnd1 : (ids1.map Prod.fst).Nodup)
    (h1 : (id1, text1, start1, end1) ∈ ids1)
    (hnone : ∀ id2 text2 start2 end2, (id2, text2, start2, end2) ∈ ids2 →
      ¬(text1 = text2 ∧ start1 ≤ end2 ∧ start2 ≤ end1)) :
    (find_overlaps ids1 ids2).filter (fun r => r.id1 == id1) =
      [{ id1 := id1, id2 := none, overlap_length := 0
         non_overlap_length1 := end1 - start1, non_overlap_length2 := 0 }] := by
  rw [@find_overlaps_filter_eq ids1 ids2 id1 (text1, start1, end1) hnd1 h1]
  dsimp only [find_overlaps_one]
  have hempty : overlap_records id1 text1 start1 end1 ids2 = [] := by
    refine List.eq_nil_iff_forall_not_mem.mpr fun r hr => ?_
    obtain ⟨id2, t2, s2, e2, hm2, hc, -⟩ := mem_overlap_records_elim hr
    exact hnone id2 t2 s2 e2 hm2 hc
  rw [hempty]
  rfl

/-- C6 (witness): the concrete entry `a` finds no partner (sequence names
differ), and its record block is exactly the one unmatched record. -/
theorem c6_unmatched_witness :
    (find_overlaps [("a", "s", 0, 5)] [("x", "t", 0, 5)]).filter
        (fun r => r.id1 == "a") =
      [⟨"a", none, 0, 5, 0⟩] := by
  have h := c6_unmatched [("a", "s", 0, 5)] [("x", "t", 0, 5)] "a" "s" 0 5
    (by decide) (by decide) ?_
  · rw [h]
    decide
  · intro id2 t2 s2 e2 hm
    rw [List.mem_singleton, Prod.ext_iff] at hm
    obtain ⟨rfl, hm2⟩ := hm
    rw [Prod.ext_iff] at hm2
    obtain ⟨rfl, hm3⟩ := hm2
    rw [Prod.ext_iff] at hm3
    obtain ⟨rfl, rfl⟩ := hm3
    decide

/-- C7: an `id1` of set 1 (with key-distinct keys) having at least one
overlapping partner in set 2 gets exactly one record per overlapping
partner — its record block is the map of the independent per-pair record
over the filtered partner list, so it has as many records as partners — and
no null-partner record is emitted for that `id1`. -/
theorem c7_fanout (ids1 ids2 : List IdEntry) (id1 text1 : String)
    (start1 end1 : Int) (hnd1 : (ids1.map Prod.fst).Nodup)
    (h1 : (id1, text1, start1, end1) ∈ ids1)
    (hsome : ids2.filter (fun e =>
        decide (text1 = e.2.1 ∧ start1 ≤ e.2.2.2 ∧ e.2.2.1 ≤ end1)) ≠ []) :
    (find_overlaps ids1 ids2).filter (fun r => r.id1 == id1) =
      (ids2.filter (fun e =>
          decide (text1 = e.2.1 ∧ start1 ≤ e.2.2.2 ∧ e.2.2.1 ≤ end1))).map
        (fun e => match_record id1 e.1 start1 end1 e.2.2.1 e.2.2.2) ∧
    ((find_overlaps ids1 ids2).filter (fun r => r.id1 == id1)).length =
      (ids2.filter (fun e =>
          decide (text1 = e.2.1 ∧ start1 ≤ e.2.2.2 ∧ e.2.2.1 ≤ end1))).length ∧
    ∀ r ∈ find_overlaps ids1 ids2, r.id1 = id1 → r.id2 ≠ none := by
  have hrec := overlap_records_eq_map id1 text1 start1 end1 ids2
  have hne : ¬(overlap_records id1 text1 start1 end1 ids2).isEmpty = true := by
    rw [List.isEmpty_iff, hrec]
    intro hmap
    exact hsome (List.map_eq_nil_iff.mp hmap)
  have hblock : (find_overlaps ids1 ids2).filter (fun r => r.id1 == id1) =
      (ids2.filter (fun e =>
          decide (text1 = e.2.1 ∧ start1 ≤ e.2.2.2 ∧ e.2.2.1 ≤ end1))).map
        (fun e => match_record id1 e.1 start1 end1 e.2.2.1 e.2.2.2) := by
    rw [@find_overlaps_filter_eq ids1 ids2 id1 (text1, start1, end1) hnd1 h1]
    dsimp only [find_overlaps_one]
    rw [if_neg hne]
    exact hrec
  refine ⟨hblock, by rw [hblock, List.length_map], ?_⟩
  obtain ⟨e, he⟩ := List.exists_mem_of_ne_nil _ hsome
  obtain ⟨hemem, hecond⟩ := List.mem_filter.mp he
  obtain ⟨id2, t2, s2, e2⟩ := e
  exact no_null_record_of_match hnd1 h1 hemem (of_decide_eq_true hecond)

/-- C7 (witness): the entry `a` with interval `(0, 10)` overlaps both `b`
and `c`, so its block is exactly the two independently computed records, of
length two, and no null-partner record for `a` is emitted. -/
theorem c7_fanout_witness :
    (find_overlaps [("a", "s", 0, 10)]
        [("b", "s", 2, 4), ("c", "s", 6, 20)]).filter
        (fun r => r.id1 == "a") =
      [⟨"a", some "b", 2, 8, 0⟩, ⟨"a", some "c", 4, 6, 10⟩] ∧
    ((find_overlaps [("a", "s", 0, 10)]
        [("b", "s", 2, 4), ("c", "s", 6, 20)]).filter
        (fun r => r.id1 == "a")).length = 2 ∧
    (⟨"a", none, 0, 10, 0⟩ : Overlap) ∉
      find_overlaps [("a", "s", 0, 10)] [("b", "s", 2, 4), ("c", "s", 6, 20)] := by
  have h := c7_fanout [("a", "s", 0, 10)] [("b", "s", 2, 4), ("c", "s", 6, 20)]
    "a" "s" 0 10 (by decide) (by decide) (by decide)
  refine ⟨?_, ?_, ?_⟩
  · rw [h.1]
    decide
  · rw [h.2.1]
    decide
  · intro hm
    exact h.2.2 _ hm rfl rfl

/-- C9: when every interval of both input dicts is normalized
(`start ≤ end`, as `get_start_end` guarantees), every record emitted by
`find_overlaps` — matched or unmatched — has `overlap_length ≥ 0`,
`non_overlap_1 ≥ 0` and `non_overlap_2 ≥ 0`. -/
theorem c9_nonneg (ids1 ids2 : List IdEntry)
    (h1 : ∀ e ∈ ids1, e.2.2.1 ≤ e.2.2.2) (h2 : ∀ e ∈ ids2, e.2.2.1 ≤ e.2.2.2) :
    ∀ r ∈ find_overlaps ids1 ids2,
      0 ≤ r.overlap_length ∧ 0 ≤ r.non_overlap_length1 ∧
        0 ≤ r.non_overlap_length2 := by
  intro r hr
  obtain ⟨⟨id1, text1, start1, end1⟩, he, hre⟩ := mem_find_overlaps.mp hr
  have hn1 : start1 ≤ end1 := h1 _ he
  dsimp only [find_overlaps_one] at hre
  by_cases hemp : (overlap_records id1 text1 start1 end1 ids2).isEmpty
  · rw [if_pos hemp, List.mem_singleton] at hre
    subst hre
    simp only [unmatched_record]
    omega
  · rw [if_neg hemp] at hre
    obtain ⟨id2, t2, s2, e2, hm2, hc, rfl⟩ := mem_overlap_records_elim hre
    have hn2 : s2 ≤ e2 := h2 _ hm2
    obtain ⟨-, hc1, hc2⟩ := hc
    simp only [match_record]
    omega

/-- C9 (witness): the invariant applied to a concrete record of a concrete
normalized run. -/
theorem c9_nonneg_witness :
    0 ≤ (⟨"a", some "b", 5, 5, 5⟩ : Overlap).overlap_length ∧
    0 ≤ (⟨"a", some "b", 5, 5, 5⟩ : Overlap).non_overlap_length1 ∧
    0 ≤ (⟨"a", some "b", 5, 5, 5⟩ : Overlap).non_overlap_length2 :=
  c9_nonneg [("a", "s", 10, 20)] [("b", "s", 15, 25)] (by decide) (by decide)
    ⟨"a", some "b", 5, 5, 5⟩ (by decide)

/-- C10: for normalized intervals on the same sequence that merely touch
(`start1 = end2` or `start2 = end1`), `find_overlaps` (with key-distinct
set 1) emits a matched record with `id2` present and `overlap_length = 0`
(hence `non_overlap_1 = end1 - start1` and `non_overlap_2 = end2 - start2`),
and emits no null-partner record for that `id1`; in particular
`overlap_length = 0` does not imply `id2` is absent. -/
theorem c10_touching (ids1 ids2 : List IdEntry) (id1 text1 : String)
    (start1 end1 : Int) (id2 text2 : String) (start2 end2 : Int)
    (hnd1 : (ids1.map Prod.fst).Nodup)
    (h1 : (id1, text1, start1, end1) ∈ ids1)
    (h2 : (id2, text2, start2, end2) ∈ ids2)
    (hn1 : start1 ≤ end1) (hn2 : start2 ≤ end2) (ht : text1 = text2)
    (htouch : start1 = end2 ∨ start2 = end1) :
    ({ id1 := id1, id2 := some id2, overlap_length := 0
       non_overlap_length1 := end1 - start1
       non_overlap_length2 := end2 - start2 } : Overlap) ∈
      find_overlaps ids1 ids2 ∧
    ∀ r ∈ find_overlaps ids1 ids2, r.id1 = id1 → r.id2 ≠ none := by
  have hc : text1 = text2 ∧ start1 ≤ end2 ∧ start2 ≤ end1 :=
    ⟨ht, by omega, by omega⟩
  have hzero : max 0 (min end1 end2 - max start1 start2) = 0 := by omega
  constructor
  · have hm := match_record_mem_find_overlaps h1 h2 hc
    have he : match_record id1 id2 start1 end1 start2 end2 =
        ({ id1 := id1, id2 := some id2, overlap_length := 0
           non_overlap_length1 := end1 - start1
           non_overlap_length2 := end2 - start2 } : Overlap) := by
      simp only [match_record, hzero]
      simp
    rw [he] at hm
    exact hm
  · exact no_null_record_of_match hnd1 h1 h2 hc

/-- C10 (witness): intervals `(0, 5)` and `(5, 8)` on the same sequence
touch at `5`; the record `(a, b, 0, 5, 3)` is emitted and no null-partner
record for `a` exists. -/
theorem c10_touching_witness :
    (⟨"a", some "b", 0, 5, 3⟩ : Overlap) ∈
      find_overlaps [("a", "s", 0, 5)] [("b", "s", 5, 8)] ∧
    (⟨"a", none, 0, 5, 0⟩ : Overlap) ∉
      find_overlaps [("a", "s", 0, 5)] [("b", "s", 5, 8)] := by
  have h := c10_touching [("a", "s", 0, 5)] [("b", "s", 5, 8)] "a" "s" 0 5
    "b" "s" 5 8 (by decide) (by decide) (by decide) (by decide) (by decide)
    rfl (Or.inr rfl)
  refine ⟨?_, fun hm => h.2 _ hm rfl rfl⟩
  have h1 := h.1
  have hconv : (⟨"a", some "b", 0, (5 : Int) - 0, (8 : Int) - 5⟩ : Overlap) =
      ⟨"a", some "b", 0, 5, 3⟩ := by decide
  rw [hconv] at h1
  exact h1

/-- C3 (counterexample): the claim that `read_ids` skips every malformed row
silently and returns normally is false: a zero-column row raises an uncaught
`IndexError` (the `row[0].startswith` test is outside the suppress block),
and a non-integer coordinate column raises an uncaught `ValueError`
(`contextlib.suppress` only suppresses `IndexError`). -/
theorem c3_counterexample :
    read_ids [[]] = Except.error PyError.indexError ∧
    read_ids [["i", "x", "s", "abc", "5"]] =
      Except.error PyError.valueError := by
  decide

/-- C3 (corrected): rows with at least one and fewer than four columns (so
the missing column is reached before any `int()` call) are skipped silently,
as is a four-column row whose column 3 is an integer; but a zero-column row
raises `IndexError`, a row whose existing column 3 or 4 is not an integer
raises `ValueError`, and a well-formed non-comment row with at least five
columns is parsed into the dict with its normalized interval. -/
theorem c3_amended_parsing (ids : List IdEntry) (row : List String) :
    (read_ids_row ids [] = Except.error PyError.indexError) ∧
    (row ≠ [] → row.length < 4 → read_ids_row ids row = Except.ok ids) ∧
    (∀ c0 text s3, row[0]? = some c0 →
      starts_with c0.data "#".data = false → row[2]? = some text →
      row[3]? = some s3 → py_int s3 = Except.error PyError.valueError →
      read_ids_row ids row = Except.error PyError.valueError) ∧
    (∀ c0 text s3 a, row[0]? = some c0 →
      starts_with c0.data "#".data = false → row[2]? = some text →
      row[3]? = some s3 → py_int s3 = Except.ok a → row[4]? = none →
      read_ids_row ids row = Except.ok ids) ∧
    (∀ c0 text s3 s4 a, row[0]? = some c0 →
      starts_with c0.data "#".data = false → row[2]? = some text →
      row[3]? = some s3 → row[4]? = some s4 → py_int s3 = Except.ok a →
      py_int s4 = Except.error PyError.valueError →
      read_ids_row ids row = Except.error PyError.valueError) ∧
    (∀ c0 text s3 s4 a b, row[0]? = some c0 →
      starts_with c0.data "#".data = false → row[2]? = some text →
      row[3]? = some s3 → row[4]? = some s4 → py_int s3 = Except.ok a →
      py_int s4 = Except.ok b →
      read_ids_row ids row =
        Except.ok (dict_set c0 (text, if a < b then (a, b) else (b, a)) ids)) := by
  refine ⟨rfl, ?_, ?_, ?_, ?_, ?_⟩
  · intro hne hlen
    match row, hne with
    | c0 :: rest, _ =>
      have h3 : (c0 :: rest)[3]? = none :=
        List.getElem?_eq_none (by simpa using Nat.lt_succ_iff.mp hlen)
      by_cases hsw : starts_with c0.data "#".data
      · simp [read_ids_row, hsw]
      · cases h2 : (c0 :: rest)[2]? with
        | none => simp [read_ids_row, hsw, h2]
        | some text => simp [read_ids_row, get_start_end, hsw, h2, h3]
  · intro c0 text s3 h0 hsw h2 h3 hpy
    simp [read_ids_row, get_start_end, h0, hsw, h2, h3, hpy]
  · intro c0 text s3 a h0 hsw h2 h3 hpy h4
    simp [read_ids_row, get_start_end, h0, hsw, h2, h3, h4, hpy]
  · intro c0 text s3 s4 a h0 hsw h2 h3 h4 hpy3 hpy4
    simp [read_ids_row, get_start_end, h0, hsw, h2, h3, h4, hpy3, hpy4]
  · intro c0 text s3 s4 a b h0 hsw h2 h3 h4 hpy3 hpy4
    simp [read_ids_row, get_start_end, h0, hsw, h2, h3, h4, hpy3, hpy4]

/-- C3 (witness): the corrected row semantics applied to concrete rows of
each kind. -/
theorem c3_amended_parsing_witness :
    read_ids_row [] [] = Except.error PyError.indexError ∧
    read_ids_row [] ["i", "x"] = Except.ok [] ∧
    read_ids_row [] ["i", "x", "s", "abc"] =
      Except.error PyError.valueError ∧
    read_ids_row [] ["i", "x", "s", "7"] = Except.ok [] ∧
    read_ids_row [] ["i", "x", "s", "7", "z"] =
      Except.error PyError.valueError ∧
    read_ids_row [] ["i", "x", "s", "9", "3"] =
      Except.ok [("i", "s", 3, 9)] := by
  refine ⟨(c3_amended_parsing [] []).1, ?_, ?_, ?_, ?_, ?_⟩
  · exact (c3_amended_parsing [] ["i", "x"]).2.1 (by decide) (by decide)
  · exact (c3_amended_parsing [] ["i", "x", "s", "abc"]).2.2.1 "i" "s" "abc"
      rfl (by decide) rfl rfl (by decide)
  · exact (c3_amended_parsing [] ["i", "x", "s", "7"]).2.2.2.1 "i" "s" "7" 7
      rfl (by decide) rfl rfl (by decide) rfl
  · exact (c3_amended_parsing [] ["i", "x", "s", "7", "z"]).2.2.2.2.1 "i" "s"
      "7" "z" 7 rfl (by decide) rfl rfl rfl (by decide) (by decide)
  · have h := (c3_amended_parsing [] ["i", "x", "s", "9", "3"]).2.2.2.2.2 "i"
      "s" "9" "3" 9 3 rfl (by decide) rfl rfl rfl (by decide) (by decide)
    rw [h]
    decide

/-- C4 (counterexample): on the `find_overlaps` output for the given
concrete inputs (one unmatched `id1`), re-parsing the written lines into
five tab-separated columns does not recover the claimed tuples with an
empty `id2` column: the `id2` column of the unmatched record reads `None`,
not the empty string. -/
theorem c4_counterexample :
    ¬((write_overlaps (find_overlaps [("a", "s", 0, 5)] [])).map
        (fun s => splitOnTab s.data)).Perm
      ((find_overlaps [("a", "s", 0, 5)] []).map spec_claimed_tuple) := by
  decide

/-- C4 (corrected): for every Overlap Result list whose ids contain no tab
character (as holds for ids read from tab-separated input), writing it with
`write_overlaps` and re-parsing each output line into its five tab-separated
columns recovers exactly the multiset of written tuples
`(id1, id2-or-None, overlap_length, non_overlap_1, non_overlap_2)`. -/
theorem c4_amended_roundtrip (l : List Overlap)
    (h : ∀ r ∈ l, '\t' ∉ r.id1.data ∧ ∀ s, r.id2 = some s → '\t' ∉ s.data) :
    ((write_overlaps l).map (fun s => splitOnTab s.data)).Perm
      (l.map written_tuple) := by
  have hmap : (write_overlaps l).map (fun s => splitOnTab s.data) =
      (py_sorted_desc (fun r => r.overlap_length) l).map written_tuple := by
    show ((py_sorted_desc (fun r => r.overlap_length) l).map
        overlap_line).map (fun s => splitOnTab s.data) = _
    rw [List.map_map]
    refine List.map_congr_left fun r hr => ?_
    have hrl : r ∈ l :=
      (py_sorted_desc_perm (fun x => x.overlap_length) l).subset hr
    obtain ⟨hid1, hid2⟩ := h r hrl
    exact splitOnTab_overlap_line hid1 hid2
  rw [hmap]
  exact (py_sorted_desc_perm _ l).map written_tuple

/-- C4 (witness): the corrected round-trip applied to a concrete
single-record list. -/
theorem c4_amended_roundtrip_witness :
    ((write_overlaps [⟨"a", some "b", 3, 2, 1⟩]).map
        (fun s => splitOnTab s.data)).Perm
      (([⟨"a", some "b", 3, 2, 1⟩] : List Overlap).map written_tuple) :=
  c4_amended_roundtrip [⟨"a", some "b", 3, 2, 1⟩] (by
    intro r hr
    rw [List.mem_singleton] at hr
    subst hr
    refine ⟨by decide, fun s hs => ?_⟩
    have hb := Option.some.inj hs
    rw [← hb]
    decide)

end BuscoOverlap
